import Mathlib

set_option maxRecDepth 4000

/-!
Shallow embedding of the lugx-gaming order service (order-service/ in the
repository): the data model (`models`), the persistence layer
(`repository/order_repository.go`), the service layer
(`service/order_service.go`) and the HTTP handler for order creation.

Modelling conventions:
* `float64` money amounts are modelled as exact rationals (`ℚ`).
* Timestamps (`time.Time`) are modelled as natural numbers; `time.Now()`
  is a `now : ℕ` parameter.
* `uuid.New()` is modelled by an `ids : ℕ → String` parameter giving the
  n-th generated identifier of a call.
* The database is an explicit state: a list of `orders` rows and a list of
  `order_items` rows.  SQL `ORDER BY` is modelled with `List.insertionSort`
  (a deterministic stable sort); `ORDER BY id` on text columns uses a
  codepoint-lexicographic comparison.
* A `database/sql` transaction is all-or-nothing: the repository's
  `CreateOrder` runs inside one transaction with a deferred rollback and a
  final commit, so a failing statement leaves the state unchanged.
  Statement failures are modelled by an `execFails : ℕ → Bool` oracle over
  the statement index of the transaction, and a `commitFails : Bool` flag.
* `rows.Scan` decode failures during list operations are modelled by a
  `scanFails : OrderRow → Bool` oracle.
-/

namespace LugxGaming

/-- Codepoint-lexicographic comparison of character lists; used to model
the text ordering of `ORDER BY id` on UUID string columns. -/
def charListLe : List Char → List Char → Bool
  | [], _ => true
  | _ :: _, [] => false
  | a :: as, b :: bs =>
    if a.toNat < b.toNat then true
    else if b.toNat < a.toNat then false
    else charListLe as bs

/-- Lexicographic comparison of strings via their character data. -/
def strLe (a b : String) : Bool :=
  charListLe a.data b.data

/-- One row of the `order_items` table / `models.OrderItem`. -/
structure OrderItem where
  id : String
  orderId : String
  gameId : ℤ
  gameName : String
  price : ℚ
  quantity : ℤ
  subtotal : ℚ
  deriving Repr, DecidableEq

/-- One row of the `orders` table (an order without its items). -/
structure OrderRow where
  id : String
  customerId : String
  totalPrice : ℚ
  status : String
  orderDate : ℕ
  createdAt : ℕ
  updatedAt : ℕ
  deriving Repr, DecidableEq

/-- `models.Order`: an order together with its populated items. -/
structure Order where
  id : String
  customerId : String
  totalPrice : ℚ
  status : String
  orderDate : ℕ
  createdAt : ℕ
  updatedAt : ℕ
  items : List OrderItem
  deriving Repr, DecidableEq

/-- The `orders`-table row of an order (drops the items). -/
def Order.row (o : Order) : OrderRow :=
  { id := o.id, customerId := o.customerId, totalPrice := o.totalPrice,
    status := o.status, orderDate := o.orderDate, createdAt := o.createdAt,
    updatedAt := o.updatedAt }

/-- The database state owned by the order service: the `orders` and
`order_items` tables. -/
structure DB where
  orders : List OrderRow
  orderItems : List OrderItem
  deriving Repr, DecidableEq

/-- `models.CreateOrderItemRequest`. -/
structure CreateOrderItemRequest where
  gameId : ℤ
  gameName : String
  price : ℚ
  quantity : ℤ
  deriving Repr, DecidableEq

/-- `models.CreateOrderRequest`. -/
structure CreateOrderRequest where
  customerId : String
  items : List CreateOrderItemRequest
  deriving Repr, DecidableEq

/-- `models.OrderResponse`. -/
structure OrderResponse where
  id : String
  customerId : String
  totalPrice : ℚ
  status : String
  orderDate : ℕ
  createdAt : ℕ
  updatedAt : ℕ
  items : List OrderItem
  deriving Repr, DecidableEq

/-- `models.OrdersListResponse`. -/
structure OrdersListResponse where
  orders : List OrderResponse
  total : ℕ
  deriving Repr, DecidableEq

/-- Conversion done in `OrderService.GetAllOrders` from `models.Order` to
`models.OrderResponse` (a field-by-field copy). -/
def toOrderResponse (o : Order) : OrderResponse :=
  { id := o.id, customerId := o.customerId, totalPrice := o.totalPrice,
    status := o.status, orderDate := o.orderDate, createdAt := o.createdAt,
    updatedAt := o.updatedAt, items := o.items }

/-- `ORDER BY order_date DESC` on `orders` rows. -/
def dateDesc (a b : OrderRow) : Prop :=
  b.orderDate ≤ a.orderDate

instance : DecidableRel dateDesc :=
  fun a b => inferInstanceAs (Decidable (b.orderDate ≤ a.orderDate))

/-- `ORDER BY id` on `order_items` rows. -/
def itemIdLe (a b : OrderItem) : Prop :=
  strLe a.id b.id = true

instance : DecidableRel itemIdLe :=
  fun a b => inferInstanceAs (Decidable (strLe a.id b.id = true))

namespace OrderRepository

/-- `OrderRepository.getOrderItems`: `SELECT ... FROM order_items WHERE
order_id = $1 ORDER BY id`. -/
def getOrderItems (db : DB) (orderID : String) : List OrderItem :=
  List.insertionSort itemIdLe
    (db.orderItems.filter fun it => decide (it.orderId = orderID))

/-- Decoding of one `orders` row into a `models.Order` with its items
populated, as done by the read paths of the repository. -/
def rowToOrder (db : DB) (r : OrderRow) : Order :=
  { id := r.id, customerId := r.customerId, totalPrice := r.totalPrice,
    status := r.status, orderDate := r.orderDate, createdAt := r.createdAt,
    updatedAt := r.updatedAt, items := getOrderItems db r.id }

/-- The id-assignment loop of `OrderRepository.CreateOrder` (lines 62-64):
item `i` receives the generated id `ids (i+1)` and the back-reference
`order_id := orderId`. -/
def assignIds (ids : ℕ → String) (orderId : String) : ℕ → List OrderItem → List OrderItem
  | _, [] => []
  | i, it :: rest =>
    { it with id := ids (i + 1), orderId := orderId } :: assignIds ids orderId (i + 1) rest

/-- `OrderRepository.CreateOrder`: inside one transaction, generates the
order id, sets status `"pending"` and the timestamps, computes each item's
subtotal and the order total, inserts the order row (statement 0) and one
row per item (statements 1..n), then commits.  Any statement or commit
failure rolls the transaction back, leaving the database unchanged. -/
def CreateOrder (db : DB) (order : Order) (ids : ℕ → String) (now : ℕ)
    (execFails : ℕ → Bool) (commitFails : Bool) : DB × Except String Order :=
  let withSub := order.items.map fun it =>
    { it with subtotal := it.price * (it.quantity : ℚ) }
  let order1 : Order :=
    { order with
      id := ids 0, status := "pending", orderDate := now, createdAt := now,
      updatedAt := now, totalPrice := (withSub.map fun it => it.subtotal).sum,
      items := withSub }
  if execFails 0 then
    (db, Except.error "failed to insert order")
  else
    let finalItems := assignIds ids order1.id 0 order1.items
    if (List.range order1.items.length).any fun i => execFails (i + 1) then
      (db, Except.error "failed to insert order item")
    else if commitFails then
      (db, Except.error "failed to commit transaction")
    else
      ({ orders := db.orders ++ [order1.row], orderItems := db.orderItems ++ finalItems },
       Except.ok { order1 with items := finalItems })

/-- `OrderRepository.GetOrderByID`: `SELECT ... FROM orders WHERE id = $1`,
`sql.ErrNoRows` becomes the error `"order not found"`; on a hit the items
are fetched and attached. -/
def GetOrderByID (db : DB) (id : String) : Except String Order :=
  match db.orders.find? fun r => decide (r.id = id) with
  | none => Except.error "order not found"
  | some row => Except.ok (rowToOrder db row)

/-- The row-scanning loop shared by the two list operations: each fetched
`orders` row is decoded; a decode failure aborts the whole operation with
the scan error (the repository returns the error to the caller). -/
def scanRows (db : DB) (scanFails : OrderRow → Bool) : List OrderRow → Except String (List Order)
  | [] => Except.ok []
  | row :: rest =>
    if scanFails row then Except.error "failed to scan order"
    else
      match scanRows db scanFails rest with
      | Except.error e => Except.error e
      | Except.ok os => Except.ok (rowToOrder db row :: os)

/-- `OrderRepository.GetOrdersByCustomerID`: `SELECT ... FROM orders WHERE
customer_id = $1 ORDER BY order_date DESC`, each row decoded and its items
attached. -/
def GetOrdersByCustomerID (db : DB) (customerID : String)
    (scanFails : OrderRow → Bool) : Except String (List Order) :=
  scanRows db scanFails
    (List.insertionSort dateDesc
      (db.orders.filter fun r => decide (r.customerId = customerID)))

/-- `OrderRepository.GetAllOrders`: `SELECT COUNT(*) FROM orders` for the
total, then `SELECT ... FROM orders ORDER BY order_date DESC LIMIT $1
OFFSET $2`, each row decoded and its items attached.  The limit is passed
through to the query unchanged: the repository applies no clamp. -/
def GetAllOrders (db : DB) (limit offset : ℤ) (scanFails : OrderRow → Bool) :
    Except String (List Order × ℕ) :=
  let total := db.orders.length
  let page := ((List.insertionSort dateDesc db.orders).drop offset.toNat).take limit.toNat
  match scanRows db scanFails page with
  | Except.error e => Except.error e
  | Except.ok os => Except.ok (os, total)

/-- `OrderRepository.UpdateOrderStatus`: `UPDATE orders SET status = $1,
updated_at = $2 WHERE id = $3`; zero affected rows yields the error
`"order not found"`. -/
def UpdateOrderStatus (db : DB) (id status : String) (now : ℕ) :
    DB × Except String Unit :=
  let affected := db.orders.countP fun r => decide (r.id = id)
  let db1 : DB :=
    { db with
      orders := db.orders.map fun r =>
        if r.id = id then { r with status := status, updatedAt := now } else r }
  if affected = 0 then (db1, Except.error "order not found")
  else (db1, Except.ok ())

/-- `OrderRepository.DeleteOrder`: `DELETE FROM orders WHERE id = $1`; the
matching `order_items` rows are removed with it by the schema's `ON DELETE
CASCADE`; zero affected rows yields the error `"order not found"`. -/
def DeleteOrder (db : DB) (id : String) : DB × Except String Unit :=
  let affected := db.orders.countP fun r => decide (r.id = id)
  if affected = 0 then (db, Except.error "order not found")
  else
    ({ orders := db.orders.filter fun r => decide (r.id ≠ id),
       orderItems := db.orderItems.filter fun it => decide (it.orderId ≠ id) },
     Except.ok ())

end OrderRepository

/-- The fixed six-value status enumeration of
`OrderService.UpdateOrderStatus`. -/
def validStatuses : List String :=
  ["pending", "confirmed", "processing", "shipped", "delivered", "cancelled"]

/-- Aggregates returned by `OrderService.GetOrderStatistics`. -/
structure OrderStats where
  totalOrders : ℕ
  totalRevenue : ℚ
  statusCounts : String → ℕ

namespace OrderService

/-- The validation loop of `OrderService.CreateOrder`: the first item with
`quantity <= 0` or `price < 0` aborts with an error naming its game. -/
def validateItems : List CreateOrderItemRequest → Except String Unit
  | [] => Except.ok ()
  | it :: rest =>
    if it.quantity ≤ 0 then
      Except.error ("quantity must be greater than 0 for game " ++ it.gameName)
    else if it.price < 0 then
      Except.error ("price cannot be negative for game " ++ it.gameName)
    else validateItems rest

/-- Conversion of one request item into a fresh `models.OrderItem` (ids and
subtotal still zero-valued) done by `OrderService.CreateOrder`. -/
def toOrderItem (it : CreateOrderItemRequest) : OrderItem :=
  { id := "", orderId := "", gameId := it.gameId, gameName := it.gameName,
    price := it.price, quantity := it.quantity, subtotal := 0 }

/-- Conversion of a validated request into the `models.Order` value handed
to the repository (generated fields still zero-valued). -/
def toOrder (request : CreateOrderRequest) : Order :=
  { id := "", customerId := request.customerId, totalPrice := 0, status := "",
    orderDate := 0, createdAt := 0, updatedAt := 0,
    items := request.items.map toOrderItem }

/-- `OrderService.CreateOrder`: rejects an empty item list, validates every
item, then delegates to the repository; a repository error is wrapped as
`"failed to create order: ..."`. -/
def CreateOrder (db : DB) (request : CreateOrderRequest) (ids : ℕ → String)
    (now : ℕ) (execFails : ℕ → Bool) (commitFails : Bool) :
    DB × Except String Order :=
  if request.items.length = 0 then
    (db, Except.error "order must contain at least one item")
  else
    match validateItems request.items with
    | Except.error e => (db, Except.error e)
    | Except.ok _ =>
      match OrderRepository.CreateOrder db (toOrder request) ids now execFails commitFails with
      | (db1, Except.error e) => (db1, Except.error ("failed to create order: " ++ e))
      | (db1, Except.ok o) => (db1, Except.ok o)

/-- `OrderService.GetAllOrders`: normalizes `page` and `pageSize`, converts
them to limit/offset and delegates to the repository, reshaping the result
into an `OrdersListResponse`. -/
def GetAllOrders (db : DB) (page pageSize : ℤ) (scanFails : OrderRow → Bool) :
    Except String OrdersListResponse :=
  let page1 := if page < 1 then 1 else page
  let pageSize1 := if pageSize < 1 ∨ pageSize > 100 then 10 else pageSize
  let offset := (page1 - 1) * pageSize1
  match OrderRepository.GetAllOrders db pageSize1 offset scanFails with
  | Except.error e => Except.error e
  | Except.ok (orders, total) =>
    Except.ok { orders := orders.map toOrderResponse, total := total }

/-- `OrderService.UpdateOrderStatus`: requires a non-empty id, checks the
status against the six-value enumeration (rejecting with an error naming
the invalid value), then delegates to the repository. -/
def UpdateOrderStatus (db : DB) (id status : String) (now : ℕ) :
    DB × Except String Unit :=
  if id = "" then (db, Except.error "order ID is required")
  else if validStatuses.contains status then
    OrderRepository.UpdateOrderStatus db id status now
  else (db, Except.error ("invalid status: " ++ status))

/-- `OrderService.DeleteOrder`: requires a non-empty id, then delegates. -/
def DeleteOrder (db : DB) (id : String) : DB × Except String Unit :=
  if id = "" then (db, Except.error "order ID is required")
  else OrderRepository.DeleteOrder db id

/-- The loop body of the aggregation in `OrderService.GetOrderStatistics`:
increments the per-status count of the order's status and, for a
`"delivered"` order, adds its total price to the revenue. -/
def statsStep (acc : ℚ × (String → ℕ)) (o : Order) : ℚ × (String → ℕ) :=
  ((if o.status = "delivered" then acc.1 + o.totalPrice else acc.1),
   fun s => if s = o.status then acc.2 s + 1 else acc.2 s)

/-- The aggregation loop of `OrderService.GetOrderStatistics`: one pass over
the fetched orders incrementing the per-status count and, for `"delivered"`
orders, accumulating the revenue. -/
def statsFold (orders : List Order) : ℚ × (String → ℕ) :=
  orders.foldl statsStep (0, fun _ => 0)

/-- `OrderService.GetOrderStatistics`: fetches up to 1000 recent orders via
`GetAllOrders(1000, 0)` and aggregates them in application code; the total
order count comes from the repository's `COUNT(*)`. -/
def GetOrderStatistics (db : DB) : Except String OrderStats :=
  match OrderRepository.GetAllOrders db 1000 0 (fun _ => false) with
  | Except.error e => Except.error ("failed to get orders for statistics: " ++ e)
  | Except.ok (orders, total) =>
    Except.ok
      { totalOrders := total, totalRevenue := (statsFold orders).1,
        statusCounts := (statsFold orders).2 }

end OrderService

namespace OrderHandler

/-- The gin binding tags on `models.CreateOrderItemRequest`:
`game_id binding:"required"` (a zero value fails `required`),
`game_name binding:"required"`, `price binding:"required,min=0"` and
`quantity binding:"required,min=1"`. -/
def bindCreateOrderItem (it : CreateOrderItemRequest) : Bool :=
  decide (it.gameId ≠ 0) && decide (it.gameName ≠ "") &&
    decide (it.price ≠ 0) && decide (0 ≤ it.price) && decide (1 ≤ it.quantity)

/-- The gin binding tags on `models.CreateOrderRequest`:
`customer_id binding:"required"` and `items binding:"required,min=1"`,
plus the per-item tags. -/
def bindCreateOrderRequest (req : CreateOrderRequest) : Bool :=
  decide (req.customerId ≠ "") && decide (1 ≤ req.items.length) &&
    req.items.all bindCreateOrderItem

/-- `OrderHandler.CreateOrder`: `ShouldBindJSON` rejects a request that
fails the binding tags with HTTP 400 before the service is called; a
service error is also reported as 400; success returns 201.  The result is
the database state after the call and the HTTP status code. -/
def CreateOrder (db : DB) (req : CreateOrderRequest) (ids : ℕ → String)
    (now : ℕ) (execFails : ℕ → Bool) (commitFails : Bool) : DB × ℕ :=
  if bindCreateOrderRequest req = false then (db, 400)
  else
    match OrderService.CreateOrder db req ids now execFails commitFails with
    | (db1, Except.error _) => (db1, 400)
    | (db1, Except.ok _) => (db1, 201)

end OrderHandler

/-- Deterministic id generator used for concrete evaluations. -/
def idsEx : ℕ → String
  | 0 => "order-1"
  | 1 => "item-1"
  | _ => "item-2"

/-- Concrete request item: price 10, quantity 2. -/
def itemReqA : CreateOrderItemRequest :=
  { gameId := 1, gameName := "Elden Ring", price := 10, quantity := 2 }

/-- Concrete request item: price 3, quantity 1. -/
def itemReqB : CreateOrderItemRequest :=
  { gameId := 2, gameName := "Hades", price := 3, quantity := 1 }

/-- Concrete valid create request with two items. -/
def reqEx : CreateOrderRequest :=
  { customerId := "c1", items := [itemReqA, itemReqB] }

/-- Concrete create request with an empty item list. -/
def reqEmpty : CreateOrderRequest :=
  { customerId := "c1", items := [] }

/-- Concrete create request whose customer id is the empty string. -/
def reqNoCustomer : CreateOrderRequest :=
  { customerId := "", items := [itemReqA] }

/-- Concrete stored order row. -/
def rowEx : OrderRow :=
  { id := "o1", customerId := "c1", totalPrice := 20, status := "pending",
    orderDate := 3, createdAt := 3, updatedAt := 3 }

/-- Concrete stored order row with status delivered. -/
def rowEx2 : OrderRow :=
  { id := "o2", customerId := "c1", totalPrice := 7, status := "delivered",
    orderDate := 5, createdAt := 5, updatedAt := 5 }

/-- Concrete stored item row belonging to `rowEx`. -/
def itemEx : OrderItem :=
  { id := "i1", orderId := "o1", gameId := 1, gameName := "Elden Ring",
    price := 10, quantity := 2, subtotal := 20 }

/-- Concrete database with two orders and one item row. -/
def dbEx : DB :=
  { orders := [rowEx, rowEx2], orderItems := [itemEx] }

/-- Empty database. -/
def dbEmpty : DB :=
  { orders := [], orderItems := [] }

/-- Delivered order row of unit price used to build large stores. -/
def bigRow : OrderRow :=
  { id := "big", customerId := "c9", totalPrice := 1, status := "delivered",
    orderDate := 0, createdAt := 0, updatedAt := 0 }

/-- Database holding 1001 delivered orders of total price 1 each: one more
than the statistics fetch cap. -/
def dbBig : DB :=
  { orders := List.replicate 1001 bigRow, orderItems := [] }

/-- Database holding 101 orders: one more than the claimed page maximum. -/
def db101 : DB :=
  { orders := List.replicate 101 bigRow, orderItems := [] }

/-- Scan oracle that fails exactly on `rowEx`. -/
def scanFailsRowEx : OrderRow → Bool :=
  fun r => decide (r.id = "o1")

/-!  Helper lemmas about the embedding, shared by the claim theorems. -/

/-- An `Except` value whose `isOk` test evaluates to `true` is an `ok`. -/
theorem exists_ok_of_isOk {ε α : Type} {e : Except ε α} (h : e.isOk = true) :
    ∃ a, e = Except.ok a := by
  cases e with
  | error x => simp [Except.isOk, Except.toBool] at h
  | ok a => exact ⟨a, rfl⟩

/-- The scan loop of the list operations either decodes every row in order
or fails as a whole with the scan error of the first undecodable row. -/
theorem scanRows_eq (db : DB) (scanFails : OrderRow → Bool) (l : List OrderRow) :
    OrderRepository.scanRows db scanFails l =
      if l.all (fun r => !scanFails r) then
        Except.ok (l.map (OrderRepository.rowToOrder db))
      else Except.error "failed to scan order" := by
  induction l with
  | nil => simp [OrderRepository.scanRows]
  | cons r rest ih =>
    by_cases h : scanFails r
    · simp [OrderRepository.scanRows, h]
    · rw [OrderRepository.scanRows, if_neg (by simp [h]), ih]
      by_cases h2 : rest.all (fun r => !scanFails r)
      · simp [h, h2]
      · simp [h, h2]

/-- Membership in the fetched items of an order: exactly the stored item
rows whose `order_id` matches. -/
theorem mem_getOrderItems {db : DB} {oid : String} {it : OrderItem} :
    it ∈ OrderRepository.getOrderItems db oid ↔
      it ∈ db.orderItems ∧ it.orderId = oid := by
  simp [OrderRepository.getOrderItems, List.mem_insertionSort, List.mem_filter]

/-- The id-assignment loop preserves the number of items. -/
theorem assignIds_length (ids : ℕ → String) (oid : String) :
    ∀ (n : ℕ) (l : List OrderItem),
      (OrderRepository.assignIds ids oid n l).length = l.length := by
  intro n l
  induction l generalizing n with
  | nil => rfl
  | cons it rest ih => simp [OrderRepository.assignIds, ih]

/-- Every item produced by the id-assignment loop carries the given
back-reference and the price, quantity and subtotal of a source item. -/
theorem mem_assignIds (ids : ℕ → String) (oid : String) :
    ∀ (n : ℕ) (l : List OrderItem) (it : OrderItem),
      it ∈ OrderRepository.assignIds ids oid n l →
      it.orderId = oid ∧
        ∃ x ∈ l, it.price = x.price ∧ it.quantity = x.quantity ∧
          it.subtotal = x.subtotal := by
  intro n l
  induction l generalizing n with
  | nil => intro it h; simp [OrderRepository.assignIds] at h
  | cons x rest ih =>
    intro it h
    rw [OrderRepository.assignIds, List.mem_cons] at h
    rcases h with h | h
    · subst h
      exact ⟨rfl, x, List.mem_cons_self x rest, rfl, rfl, rfl⟩
    · obtain ⟨h1, y, hy, hp⟩ := ih (n + 1) it h
      exact ⟨h1, y, List.mem_cons_of_mem x hy, hp⟩

/-- The service-level item validation succeeds exactly when every item has
a positive quantity and a non-negative price. -/
theorem validateItems_ok_iff (l : List CreateOrderItemRequest) :
    OrderService.validateItems l = Except.ok () ↔
      ∀ it ∈ l, 0 < it.quantity ∧ 0 ≤ it.price := by
  induction l with
  | nil => simp [OrderService.validateItems]
  | cons it rest ih =>
    rw [OrderService.validateItems]
    by_cases h1 : it.quantity ≤ 0
    · rw [if_pos h1]
      constructor
      · intro h; exact Except.noConfusion h
      · intro h
        have := (h it (List.mem_cons_self it rest)).1
        omega
    · rw [if_neg h1]
      by_cases h2 : it.price < 0
      · rw [if_pos h2]
        constructor
        · intro h; exact Except.noConfusion h
        · intro h
          exact absurd h2 (not_lt.2 (h it (List.mem_cons_self it rest)).2)
      · rw [if_neg h2, ih]
        constructor
        · intro h y hy
          rcases List.mem_cons.1 hy with rfl | hy
          · exact ⟨lt_of_not_le h1, le_of_not_lt h2⟩
          · exact h y hy
        · intro h y hy
          exact h y (List.mem_cons_of_mem it hy)

/-- A failing statement or commit inside the create transaction leaves the
database unchanged (the deferred rollback discards all pending writes). -/
theorem repoCreateOrder_error (db : DB) (order : Order) (ids : ℕ → String)
    (now : ℕ) (ef : ℕ → Bool) (cf : Bool) (db1 : DB) (e : String)
    (h : OrderRepository.CreateOrder db order ids now ef cf = (db1, Except.error e)) :
    db1 = db := by
  rw [OrderRepository.CreateOrder] at h
  split at h
  · exact congrArg Prod.fst h.symm
  · split at h
    · exact congrArg Prod.fst h.symm
    · split at h
      · exact congrArg Prod.fst h.symm
      · exact absurd (congrArg Prod.snd h) (by simp)

/-- Characterization of a successful create transaction: the new state is
the old one extended with exactly the order row and its item rows, and the
returned order carries the generated id, the `"pending"` status, as many
items as were passed in, the computed total, and items whose subtotal and
back-reference were computed in the transaction. -/
theorem repoCreateOrder_ok (db : DB) (order : Order) (ids : ℕ → String)
    (now : ℕ) (ef : ℕ → Bool) (cf : Bool) (db1 : DB) (o : Order)
    (h : OrderRepository.CreateOrder db order ids now ef cf = (db1, Except.ok o)) :
    db1 = { orders := db.orders ++ [o.row], orderItems := db.orderItems ++ o.items }
  ∧ o.status = "pending"
  ∧ o.id = ids 0
  ∧ o.items.length = order.items.length
  ∧ o.totalPrice = (order.items.map fun it => it.price * (it.quantity : ℚ)).sum
  ∧ ∀ it ∈ o.items, it.orderId = o.id ∧ it.subtotal = it.price * (it.quantity : ℚ) := by
  rw [OrderRepository.CreateOrder] at h
  split at h
  · exact absurd (congrArg Prod.snd h) (by simp)
  · split at h
    · exact absurd (congrArg Prod.snd h) (by simp)
    · split at h
      · exact absurd (congrArg Prod.snd h) (by simp)
      · simp only [Prod.mk.injEq, Except.ok.injEq] at h
        obtain ⟨hdb, ho⟩ := h
        subst hdb
        subst ho
        refine ⟨rfl, rfl, rfl, ?_, ?_, ?_⟩
        · rw [assignIds_length, List.length_map]
        · rw [List.map_map]
          rfl
        · intro it hit
          obtain ⟨h1, x, hx, hpr, hq, hs⟩ := mem_assignIds _ _ _ _ _ hit
          obtain ⟨y, _, rfl⟩ := List.mem_map.1 hx
          exact ⟨h1, by rw [hs, hpr, hq]⟩

/-- Characterization of the statistics aggregation loop relative to an
arbitrary accumulator. -/
theorem statsFold_go (l : List Order) (acc : ℚ × (String → ℕ)) :
    (l.foldl OrderService.statsStep acc).1 =
      acc.1 + ((l.filter fun o => decide (o.status = "delivered")).map
        fun o => o.totalPrice).sum
  ∧ ∀ s, (l.foldl OrderService.statsStep acc).2 s =
      acc.2 s + l.countP fun o => decide (o.status = s) := by
  induction l generalizing acc with
  | nil => simp
  | cons o rest ih =>
    rw [List.foldl_cons]
    obtain ⟨h1, h2⟩ := ih (OrderService.statsStep acc o)
    constructor
    · rw [h1, List.filter_cons]
      by_cases hd : o.status = "delivered"
      · simp [OrderService.statsStep, hd, add_assoc]
      · simp [OrderService.statsStep, hd]
    · intro s
      rw [h2 s, List.countP_cons]
      by_cases hs : o.status = s
      · simp [OrderService.statsStep, hs]
        omega
      · have hs2 : ¬ s = o.status := fun hc => hs hc.symm
        simp [OrderService.statsStep, hs, hs2]

/-- The revenue computed by the aggregation loop is the sum of the total
prices of the delivered orders scanned. -/
theorem statsFold_fst (l : List Order) :
    (OrderService.statsFold l).1 =
      ((l.filter fun o => decide (o.status = "delivered")).map
        fun o => o.totalPrice).sum := by
  have := (statsFold_go l (0, fun _ => 0)).1
  simpa [OrderService.statsFold] using this

/-- The per-status count computed by the aggregation loop is the number of
scanned orders carrying that status. -/
theorem statsFold_snd (l : List Order) (s : String) :
    (OrderService.statsFold l).2 s = l.countP fun o => decide (o.status = s) := by
  have := (statsFold_go l (0, fun _ => 0)).2 s
  simpa [OrderService.statsFold] using this

/-- Every item attached to a decoded order row points back at that row. -/
theorem rowToOrder_items (db : DB) (r : OrderRow) :
    ∀ it ∈ (OrderRepository.rowToOrder db r).items,
      it.orderId = (OrderRepository.rowToOrder db r).id := by
  intro it hit
  exact (mem_getOrderItems.1 hit).2

/-- The service-level create either fails leaving the state unchanged or
succeeds appending exactly one order row and its item rows. -/
theorem serviceCreateOrder_cases (db : DB) (req : CreateOrderRequest)
    (ids : ℕ → String) (now : ℕ) (ef : ℕ → Bool) (cf : Bool) :
    (∃ e, OrderService.CreateOrder db req ids now ef cf = (db, Except.error e))
  ∨ (∃ o, OrderService.CreateOrder db req ids now ef cf =
      ({ orders := db.orders ++ [o.row], orderItems := db.orderItems ++ o.items },
       Except.ok o)) := by
  rw [OrderService.CreateOrder]
  split
  · exact Or.inl ⟨_, rfl⟩
  · cases hv : OrderService.validateItems req.items with
    | error e =>
      exact Or.inl ⟨e, rfl⟩
    | ok u =>
      cases hr : OrderRepository.CreateOrder db (OrderService.toOrder req) ids now ef cf with
      | mk db1 res =>
        cases res with
        | error e =>
          have hdb : db1 = db := repoCreateOrder_error _ _ _ _ _ _ _ _ hr
          subst hdb
          exact Or.inl ⟨_, rfl⟩
        | ok o =>
          obtain ⟨hdb, _⟩ := repoCreateOrder_ok _ _ _ _ _ _ _ _ hr
          subst hdb
          exact Or.inr ⟨o, rfl⟩

/-- Full characterization of the order returned by a successful
service-level create. -/
theorem serviceCreateOrder_ok_spec (db : DB) (req : CreateOrderRequest)
    (ids : ℕ → String) (now : ℕ) (ef : ℕ → Bool) (cf : Bool) (o : Order)
    (h : (OrderService.CreateOrder db req ids now ef cf).2 = Except.ok o) :
    o.totalPrice = (req.items.map fun it => it.price * (it.quantity : ℚ)).sum
  ∧ o.items.length = req.items.length
  ∧ (∀ it ∈ o.items, it.orderId = o.id ∧ it.subtotal = it.price * (it.quantity : ℚ))
  ∧ o.status = "pending" := by
  rw [OrderService.CreateOrder] at h
  split at h
  · exact absurd h (by simp)
  · cases hv : OrderService.validateItems req.items with
    | error e =>
      rw [hv] at h
      exact absurd h (by simp)
    | ok u =>
      rw [hv] at h
      cases hr : OrderRepository.CreateOrder db (OrderService.toOrder req) ids now ef cf with
      | mk db1 res =>
        rw [hr] at h
        cases res with
        | error e => exact absurd h (by simp)
        | ok o1 =>
          have ho : o1 = o := by simpa using h
          subst ho
          obtain ⟨_, hst, _, hlen, htot, hitems⟩ := repoCreateOrder_ok _ _ _ _ _ _ _ _ hr
          refine ⟨?_, ?_, hitems, hst⟩
          · rw [htot]
            rw [show (OrderService.toOrder req).items = req.items.map OrderService.toOrderItem
              from rfl, List.map_map]
            rfl
          · rw [hlen]
            exact List.length_map _ _

/-- Sorting a constant list returns it unchanged. -/
theorem insertionSort_replicate {α : Type} (r : α → α → Prop) [DecidableRel r]
    (n : ℕ) (a : α) :
    List.insertionSort r (List.replicate n a) = List.replicate n a := by
  rw [List.eq_replicate_iff]
  refine ⟨by rw [List.length_insertionSort, List.length_replicate], ?_⟩
  intro b hb
  rw [List.mem_insertionSort] at hb
  exact List.eq_of_mem_replicate hb

/-- C1: Order creation is all-or-nothing.  Whenever the service-level
create fails - a validation failure, a failing insert inside the
transaction, or a failing commit - the database is unchanged; whenever it
succeeds, the new state is the old one plus exactly the order row and all
of its item rows; and a request failing validation (empty items, an item
quantity at most 0 or a negative price) fails with the validation error
regardless of the write-failure oracles, before any write is attempted. -/
theorem claim1_createOrder_atomic (db : DB) (req : CreateOrderRequest)
    (ids : ℕ → String) (now : ℕ) :
    (∀ (ef : ℕ → Bool) (cf : Bool) (e : String),
      (OrderService.CreateOrder db req ids now ef cf).2 = Except.error e →
      (OrderService.CreateOrder db req ids now ef cf).1 = db)
  ∧ (∀ (ef : ℕ → Bool) (cf : Bool) (o : Order),
      (OrderService.CreateOrder db req ids now ef cf).2 = Except.ok o →
      (OrderService.CreateOrder db req ids now ef cf).1 =
        { orders := db.orders ++ [o.row], orderItems := db.orderItems ++ o.items })
  ∧ ((req.items = [] ∨ ∃ it ∈ req.items, it.quantity ≤ 0 ∨ it.price < 0) →
      ∃ e, ∀ (ef : ℕ → Bool) (cf : Bool),
        OrderService.CreateOrder db req ids now ef cf = (db, Except.error e)) := by
  refine ⟨?_, ?_, ?_⟩
  · intro ef cf e h
    rcases serviceCreateOrder_cases db req ids now ef cf with ⟨e1, hC⟩ | ⟨o1, hC⟩
    · rw [hC]
    · rw [hC] at h
      exact absurd h (by simp)
  · intro ef cf o h
    rcases serviceCreateOrder_cases db req ids now ef cf with ⟨e1, hC⟩ | ⟨o1, hC⟩
    · rw [hC] at h
      exact absurd h (by simp)
    · rw [hC] at h ⊢
      have ho : o1 = o := by simpa using h
      subst ho
      rfl
  · intro hbad
    by_cases hlen : req.items.length = 0
    · refine ⟨"order must contain at least one item", fun ef cf => ?_⟩
      rw [OrderService.CreateOrder, if_pos hlen]
    · have hbad2 : ∃ it ∈ req.items, it.quantity ≤ 0 ∨ it.price < 0 := by
        rcases hbad with h0 | h1
        · exact absurd (by rw [h0]; rfl) hlen
        · exact h1
      cases hv : OrderService.validateItems req.items with
      | error e =>
        refine ⟨e, fun ef cf => ?_⟩
        rw [OrderService.CreateOrder, if_neg hlen, hv]
      | ok u =>
        exfalso
        obtain ⟨it, hit, hq⟩ := hbad2
        have hok := (validateItems_ok_iff req.items).1 (by cases u; exact hv) it hit
        rcases hq with hq | hq
        · omega
        · exact absurd hq (not_lt.2 hok.2)

/-- Witness for C1: the concrete request with an empty item list fails,
for every failure oracle, leaving the concrete database unchanged. -/
theorem claim1_createOrder_atomic_witness :
    ∃ e, ∀ (ef : ℕ → Bool) (cf : Bool),
      OrderService.CreateOrder dbEx reqEmpty idsEx 7 ef cf = (dbEx, Except.error e) :=
  (claim1_createOrder_atomic dbEx reqEmpty idsEx 7).2.2 (Or.inl rfl)

/-- C2: For every valid create request with N items, the returned order's
total price is the exact sum of price times quantity over the N items,
the order has N items, each returned item's subtotal equals its price
times its quantity, and the returned status is `"pending"`. -/
theorem claim2_createOrder_totals (db : DB) (req : CreateOrderRequest)
    (ids : ℕ → String) (now : ℕ) (ef : ℕ → Bool) (cf : Bool) (o : Order)
    (h : (OrderService.CreateOrder db req ids now ef cf).2 = Except.ok o) :
    o.totalPrice = (req.items.map fun it => it.price * (it.quantity : ℚ)).sum
  ∧ o.items.length = req.items.length
  ∧ (∀ it ∈ o.items, it.subtotal = it.price * (it.quantity : ℚ))
  ∧ o.status = "pending" := by
  obtain ⟨htot, hlen, hitems, hst⟩ := serviceCreateOrder_ok_spec db req ids now ef cf o h
  exact ⟨htot, hlen, fun it hit => (hitems it hit).2, hst⟩

/-- Witness for C2: creating an order from the concrete two-item request
(prices 10 and 3, quantities 2 and 1) returns total price 23, status
`"pending"` and two items. -/
theorem claim2_createOrder_totals_witness :
    ∃ o, (OrderService.CreateOrder dbEmpty reqEx idsEx 7 (fun _ => false) false).2 =
        Except.ok o
      ∧ o.totalPrice = 23 ∧ o.status = "pending" ∧ o.items.length = 2 := by
  obtain ⟨o, ho⟩ := exists_ok_of_isOk
    (e := (OrderService.CreateOrder dbEmpty reqEx idsEx 7 (fun _ => false) false).2) (by rfl)
  obtain ⟨htot, hlen, _, hst⟩ := claim2_createOrder_totals _ _ _ _ _ _ _ ho
  refine ⟨o, ho, ?_, hst, ?_⟩
  · rw [htot]
    norm_num [reqEx, itemReqA, itemReqB]
  · rw [hlen]
    rfl

/-- C3 (amended): When the store holds at most 1000 orders (the statistics
fetch cap `GetAllOrders(1000, 0)`), the statistics report the total count
of all orders, the revenue as the sum of total price over every delivered
order, and, for every status value, the count of all orders having that
status. -/
theorem claim3_statistics (db : DB) (h : db.orders.length ≤ 1000) :
    ∃ stats, OrderService.GetOrderStatistics db = Except.ok stats
      ∧ stats.totalOrders = db.orders.length
      ∧ stats.totalRevenue =
          ((db.orders.filter fun r => decide (r.status = "delivered")).map
            fun r => r.totalPrice).sum
      ∧ ∀ s, stats.statusCounts s = db.orders.countP fun r => decide (r.status = s) := by
  have hperm : (List.insertionSort dateDesc db.orders).Perm db.orders :=
    List.perm_insertionSort _ _
  have hrepo : OrderRepository.GetAllOrders db 1000 0 (fun _ => false) =
      Except.ok ((List.insertionSort dateDesc db.orders).map (OrderRepository.rowToOrder db),
        db.orders.length) := by
    rw [OrderRepository.GetAllOrders]
    have hp : ((List.insertionSort dateDesc db.orders).drop (0 : ℤ).toNat).take
        (1000 : ℤ).toNat = List.insertionSort dateDesc db.orders := by
      rw [show ((0 : ℤ).toNat) = 0 from rfl, List.drop_zero]
      apply List.take_of_length_le
      rw [List.length_insertionSort]
      exact le_trans h (by norm_num)
    rw [hp, scanRows_eq, if_pos (by simp)]
  rw [OrderService.GetOrderStatistics, hrepo]
  refine ⟨_, rfl, rfl, ?_, ?_⟩
  · rw [statsFold_fst, List.filter_map, List.map_map]
    exact List.Perm.sum_eq
      ((hperm.filter fun r => decide (r.status = "delivered")).map fun r => r.totalPrice)
  · intro s
    show (OrderService.statsFold
      ((List.insertionSort dateDesc db.orders).map (OrderRepository.rowToOrder db))).2 s = _
    rw [statsFold_snd, List.countP_map]
    exact hperm.countP_eq fun r => decide (r.status = s)

/-- Witness for C3 at the concrete two-order database (below the cap). -/
theorem claim3_statistics_witness :
    ∃ stats, OrderService.GetOrderStatistics dbEx = Except.ok stats
      ∧ stats.totalOrders = 2
      ∧ stats.totalRevenue =
          ((dbEx.orders.filter fun r => decide (r.status = "delivered")).map
            fun r => r.totalPrice).sum := by
  obtain ⟨stats, h1, h2, h3, _⟩ := claim3_statistics dbEx (by norm_num [dbEx])
  exact ⟨stats, h1, by rw [h2]; rfl, h3⟩

/-- C3 counterexample: with 1001 stored delivered orders of total price 1
each, the statistics fetch only 1000 of them, so the reported revenue is
1000 while the sum over every delivered order is 1001 - the claim fails
beyond the fetch cap. -/
theorem claim3_statistics_counterexample :
    ∃ stats, OrderService.GetOrderStatistics dbBig = Except.ok stats
      ∧ stats.totalRevenue = 1000
      ∧ ((dbBig.orders.filter fun r => decide (r.status = "delivered")).map
          fun r => r.totalPrice).sum = 1001
      ∧ stats.totalRevenue ≠
          ((dbBig.orders.filter fun r => decide (r.status = "delivered")).map
            fun r => r.totalPrice).sum := by
  have hsort : List.insertionSort dateDesc dbBig.orders = List.replicate 1001 bigRow := by
    rw [show dbBig.orders = List.replicate 1001 bigRow from rfl, insertionSort_replicate]
  have hlen1001 : dbBig.orders.length = 1001 := by
    rw [show dbBig.orders = List.replicate 1001 bigRow from rfl, List.length_replicate]
  have hrepo : OrderRepository.GetAllOrders dbBig 1000 0 (fun _ => false) =
      Except.ok (List.replicate 1000 (OrderRepository.rowToOrder dbBig bigRow), 1001) := by
    rw [OrderRepository.GetAllOrders, hsort, hlen1001]
    rw [show ((0 : ℤ).toNat) = 0 from rfl, List.drop_zero]
    rw [show ((1000 : ℤ).toNat) = 1000 from rfl, List.take_replicate]
    rw [scanRows_eq, if_pos (by rw [List.all_eq_true]; intro r hr; rfl), List.map_replicate]
    rw [show min 1000 1001 = 1000 from rfl]
  have hdel : decide ((OrderRepository.rowToOrder dbBig bigRow).status = "delivered") = true :=
    rfl
  have hdel2 : decide (bigRow.status = "delivered") = true := rfl
  have hrev : (OrderService.statsFold
      (List.replicate 1000 (OrderRepository.rowToOrder dbBig bigRow))).1 = 1000 := by
    rw [statsFold_fst, List.filter_replicate, if_pos hdel, List.map_replicate]
    rw [show (OrderRepository.rowToOrder dbBig bigRow).totalPrice = 1 from rfl]
    rw [List.sum_replicate]
    norm_num
  have hfull : ((dbBig.orders.filter fun r => decide (r.status = "delivered")).map
      fun r => r.totalPrice).sum = 1001 := by
    rw [show dbBig.orders = List.replicate 1001 bigRow from rfl]
    rw [List.filter_replicate, if_pos hdel2, List.map_replicate]
    rw [show bigRow.totalPrice = 1 from rfl]
    rw [List.sum_replicate]
    norm_num
  rw [OrderService.GetOrderStatistics, hrepo]
  refine ⟨_, rfl, hrev, hfull, ?_⟩
  rw [hrev, hfull]
  norm_num

/-- C4 (amended): For every non-empty order id and every status outside
the six-value enumeration, the service-level update fails with the error
naming the invalid value and the database is unchanged (the store is not
called); for a status inside the enumeration it delegates to the store's
update.  For the empty order id the call also fails without touching the
store, but with the error naming the missing id instead of the status. -/
theorem claim4_updateStatus_enum (db : DB) (id status : String) (now : ℕ)
    (h : id ≠ "") :
    (status ∉ validStatuses →
      OrderService.UpdateOrderStatus db id status now =
        (db, Except.error ("invalid status: " ++ status)))
  ∧ (status ∈ validStatuses →
      OrderService.UpdateOrderStatus db id status now =
        OrderRepository.UpdateOrderStatus db id status now) := by
  constructor
  · intro hs
    have hc : ¬ (validStatuses.contains status = true) := by simpa using hs
    rw [OrderService.UpdateOrderStatus, if_neg h, if_neg hc]
  · intro hs
    have hc : validStatuses.contains status = true := by simpa using hs
    rw [OrderService.UpdateOrderStatus, if_neg h, if_pos hc]

/-- Witness for C4: updating order `"o1"` to the out-of-enumeration status
`"weird"` fails with the error naming that value and leaves the concrete
database untouched. -/
theorem claim4_updateStatus_enum_witness :
    OrderService.UpdateOrderStatus dbEx "o1" "weird" 3 =
      (dbEx, Except.error ("invalid status: " ++ "weird")) :=
  (claim4_updateStatus_enum dbEx "o1" "weird" 3 (by decide)).1 (by decide)

/-- C4 counterexample: for the empty order id and an out-of-enumeration
status, the service fails with `"order ID is required"` - an error that
does not name the invalid status value, refuting the claim for that id. -/
theorem claim4_updateStatus_enum_counterexample :
    OrderService.UpdateOrderStatus dbEx "" "bogus" 9 =
      (dbEx, Except.error "order ID is required")
  ∧ "order ID is required" ≠ "invalid status: " ++ "bogus" := by
  constructor
  · rw [OrderService.UpdateOrderStatus, if_pos rfl]
  · decide

/-- C5: Deleting an existing order removes the order row and, through the
cascade, every item row carrying its id, so a subsequent fetch of that id
fails with `"order not found"` and no item row with that `order_id`
remains; deleting an absent id fails with `"order not found"` and changes
nothing. -/
theorem claim5_deleteOrder (db : DB) (id : String) :
    ((∃ r ∈ db.orders, r.id = id) →
      (OrderRepository.DeleteOrder db id).2 = Except.ok ()
      ∧ OrderRepository.GetOrderByID (OrderRepository.DeleteOrder db id).1 id =
          Except.error "order not found"
      ∧ ∀ it ∈ (OrderRepository.DeleteOrder db id).1.orderItems, it.orderId ≠ id)
  ∧ ((¬ ∃ r ∈ db.orders, r.id = id) →
      OrderRepository.DeleteOrder db id = (db, Except.error "order not found")) := by
  constructor
  · intro hex
    have hcount : ¬ (db.orders.countP fun r => decide (r.id = id)) = 0 := by
      rcases hex with ⟨r, hr, hid⟩
      have : 0 < db.orders.countP fun r => decide (r.id = id) :=
        List.countP_pos_iff.2 ⟨r, hr, by simpa using hid⟩
      omega
    rw [OrderRepository.DeleteOrder, if_neg hcount]
    refine ⟨rfl, ?_, ?_⟩
    · rw [OrderRepository.GetOrderByID]
      have hnone : (List.filter (fun r => decide (r.id ≠ id)) db.orders).find?
          (fun r => decide (r.id = id)) = none := by
        rw [List.find?_eq_none]
        intro r hr
        have := (List.mem_filter.1 hr).2
        simp at this ⊢
        exact this
      rw [hnone]
    · intro it hit
      have := (List.mem_filter.1 hit).2
      simpa using this
  · intro hab
    have hcount : (db.orders.countP fun r => decide (r.id = id)) = 0 := by
      rw [List.countP_eq_zero]
      intro r hr
      simp only [decide_eq_true_eq]
      exact fun hid => hab ⟨r, hr, hid⟩
    rw [OrderRepository.DeleteOrder, if_pos hcount]

/-- Witness for C5: deleting the stored order `"o1"` from the concrete
database succeeds, the order can no longer be fetched, and its item rows
are gone. -/
theorem claim5_deleteOrder_witness :
    (OrderRepository.DeleteOrder dbEx "o1").2 = Except.ok ()
  ∧ OrderRepository.GetOrderByID (OrderRepository.DeleteOrder dbEx "o1").1 "o1" =
      Except.error "order not found"
  ∧ ∀ it ∈ (OrderRepository.DeleteOrder dbEx "o1").1.orderItems, it.orderId ≠ "o1" :=
  (claim5_deleteOrder dbEx "o1").1 (by decide)

/-- C6 (amended): The store's `GetAllOrders` applies no clamp: it returns
a page of exactly `min limit remaining` orders for whatever limit the
caller passes (the statistics path passes 1000).  Pages served through the
service never exceed 100 orders because the service normalizes the page
size into the range 1..100 before delegating. -/
theorem claim6_pageSize (db : DB) :
    (∀ (limit offset : ℤ) (scanFails : OrderRow → Bool) (os : List Order) (t : ℕ),
      OrderRepository.GetAllOrders db limit offset scanFails = Except.ok (os, t) →
      os.length = min limit.toNat (db.orders.length - offset.toNat))
  ∧ (∀ (page pageSize : ℤ) (scanFails : OrderRow → Bool) (resp : OrdersListResponse),
      OrderService.GetAllOrders db page pageSize scanFails = Except.ok resp →
      resp.orders.length ≤ 100) := by
  have ha : ∀ (limit offset : ℤ) (scanFails : OrderRow → Bool) (os : List Order) (t : ℕ),
      OrderRepository.GetAllOrders db limit offset scanFails = Except.ok (os, t) →
      os.length = min limit.toNat (db.orders.length - offset.toNat) := by
    intro limit offset scanFails os t h
    by_cases hall : (((List.insertionSort dateDesc db.orders).drop offset.toNat).take
        limit.toNat).all (fun r => !scanFails r) = true
    · rw [OrderRepository.GetAllOrders, scanRows_eq, if_pos hall] at h
      simp at h
      obtain ⟨h1, h2⟩ := h
      subst h1
      simp only [List.length_map, List.length_take, List.length_drop,
        List.length_insertionSort]
    · rw [OrderRepository.GetAllOrders, scanRows_eq, if_neg hall] at h
      simp at h
  refine ⟨ha, ?_⟩
  intro page pageSize scanFails resp h
  simp only [OrderService.GetAllOrders] at h
  cases hr : OrderRepository.GetAllOrders db
      (if pageSize < 1 ∨ pageSize > 100 then 10 else pageSize)
      (((if page < 1 then 1 else page) - 1) *
        (if pageSize < 1 ∨ pageSize > 100 then 10 else pageSize)) scanFails with
  | error e =>
    rw [hr] at h
    exact absurd h (by simp)
  | ok p =>
    obtain ⟨os, t⟩ := p
    rw [hr] at h
    have hresp : resp = { orders := os.map toOrderResponse, total := t } := by
      simpa using h.symm
    subst hresp
    have hlen := ha _ _ _ _ _ hr
    have hbound : (if pageSize < 1 ∨ pageSize > 100 then 10 else pageSize) ≤ (100 : ℤ) := by
      split
      · norm_num
      · omega
    simp only [List.length_map]
    omega

/-- Witness for C6: a concrete in-range service page holds at most 100
orders. -/
theorem claim6_pageSize_witness :
    ∃ resp, OrderService.GetAllOrders dbEx 1 5 (fun _ => false) = Except.ok resp
      ∧ resp.orders.length ≤ 100 := by
  obtain ⟨resp, hr⟩ := exists_ok_of_isOk
    (e := OrderService.GetAllOrders dbEx 1 5 (fun _ => false)) (by rfl)
  exact ⟨resp, hr, (claim6_pageSize dbEx).2 _ _ _ _ hr⟩

/-- C6 counterexample: the store happily returns 101 orders when called
with limit 1000 (as the statistics path does), so the claimed clamp of the
store's limit to a maximum of 100 does not exist. -/
theorem claim6_pageSize_counterexample :
    ∃ os t, OrderRepository.GetAllOrders db101 1000 0 (fun _ => false) =
        Except.ok (os, t)
      ∧ os.length = 101 ∧ 100 < os.length := by
  have hsort : List.insertionSort dateDesc db101.orders = List.replicate 101 bigRow := by
    rw [show db101.orders = List.replicate 101 bigRow from rfl, insertionSort_replicate]
  have hlen101 : db101.orders.length = 101 := by
    rw [show db101.orders = List.replicate 101 bigRow from rfl, List.length_replicate]
  refine ⟨List.replicate 101 (OrderRepository.rowToOrder db101 bigRow), 101, ?_, ?_, ?_⟩
  · rw [OrderRepository.GetAllOrders, hsort, hlen101]
    rw [show ((0 : ℤ).toNat) = 0 from rfl, List.drop_zero]
    rw [show ((1000 : ℤ).toNat) = 1000 from rfl, List.take_replicate]
    rw [scanRows_eq, if_pos (by rw [List.all_eq_true]; intro r hr; rfl), List.map_replicate]
    rw [show min 1000 101 = 101 from rfl]
  · exact List.length_replicate 101 _
  · rw [List.length_replicate]
    norm_num

/-- C7: A create request whose customer id is the empty string fails the
`required` binding check in the handler with HTTP 400, before the service
or the store is called, and the database is unchanged. -/
theorem claim7_emptyCustomer (db : DB) (req : CreateOrderRequest)
    (ids : ℕ → String) (now : ℕ) (ef : ℕ → Bool) (cf : Bool)
    (h : req.customerId = "") :
    OrderHandler.CreateOrder db req ids now ef cf = (db, 400) := by
  have hb : OrderHandler.bindCreateOrderRequest req = false := by
    simp [OrderHandler.bindCreateOrderRequest, h]
  rw [OrderHandler.CreateOrder, if_pos hb]

/-- Witness for C7 at the concrete empty-customer request. -/
theorem claim7_emptyCustomer_witness :
    OrderHandler.CreateOrder dbEx reqNoCustomer idsEx 2 (fun _ => false) false =
      (dbEx, 400) :=
  claim7_emptyCustomer dbEx reqNoCustomer idsEx 2 (fun _ => false) false rfl

/-- C8 (amended): During list operations a stored row that fails to decode
is not skipped: the scan error is surfaced and the whole request fails,
returning no rows; only when every scanned row decodes does the operation
succeed, and then it returns all of them. -/
theorem claim8_scanFailure (db : DB) (cid : String) (scanFails : OrderRow → Bool)
    (limit offset : ℤ) :
    ((∃ r ∈ db.orders, r.customerId = cid ∧ scanFails r = true) →
      OrderRepository.GetOrdersByCustomerID db cid scanFails =
        Except.error "failed to scan order")
  ∧ ((∃ r ∈ ((List.insertionSort dateDesc db.orders).drop offset.toNat).take limit.toNat,
        scanFails r = true) →
      OrderRepository.GetAllOrders db limit offset scanFails =
        Except.error "failed to scan order")
  ∧ ((∀ r ∈ db.orders, scanFails r = false) →
      OrderRepository.GetOrdersByCustomerID db cid scanFails =
        Except.ok ((List.insertionSort dateDesc
          (db.orders.filter fun r => decide (r.customerId = cid))).map
            (OrderRepository.rowToOrder db))
      ∧ OrderRepository.GetAllOrders db limit offset scanFails =
          Except.ok ((((List.insertionSort dateDesc db.orders).drop offset.toNat).take
            limit.toNat).map (OrderRepository.rowToOrder db), db.orders.length)) := by
  refine ⟨?_, ?_, ?_⟩
  · intro hex
    obtain ⟨r, hr, hcid, hf⟩ := hex
    rw [OrderRepository.GetOrdersByCustomerID, scanRows_eq, if_neg ?_]
    intro hall
    rw [List.all_eq_true] at hall
    have hmem : r ∈ List.insertionSort dateDesc
        (db.orders.filter fun r => decide (r.customerId = cid)) := by
      rw [List.mem_insertionSort, List.mem_filter]
      exact ⟨hr, by simpa using hcid⟩
    have := hall r hmem
    rw [hf] at this
    exact absurd this (by simp)
  · intro hex
    obtain ⟨r, hr, hf⟩ := hex
    rw [OrderRepository.GetAllOrders, scanRows_eq, if_neg ?_]
    intro hall
    rw [List.all_eq_true] at hall
    have := hall r hr
    rw [hf] at this
    exact absurd this (by simp)
  · intro hok
    constructor
    · rw [OrderRepository.GetOrdersByCustomerID, scanRows_eq, if_pos ?_]
      rw [List.all_eq_true]
      intro r hr
      have hmem : r ∈ db.orders :=
        (List.mem_filter.1 ((List.mem_insertionSort _).1 hr)).1
      rw [hok r hmem]
      rfl
    · rw [OrderRepository.GetAllOrders, scanRows_eq, if_pos ?_]
      rw [List.all_eq_true]
      intro r hr
      have hmem : r ∈ db.orders := by
        have h1 := List.mem_of_mem_take hr
        have h2 := List.mem_of_mem_drop h1
        exact (List.mem_insertionSort _).1 h2
      rw [hok r hmem]
      rfl

/-- Witness for C8: with an oracle failing on the first stored row, the
customer list operation surfaces the scan error. -/
theorem claim8_scanFailure_witness :
    OrderRepository.GetOrdersByCustomerID dbEx "c1" scanFailsRowEx =
      Except.error "failed to scan order" :=
  (claim8_scanFailure dbEx "c1" scanFailsRowEx 10 0).1 ⟨rowEx, by decide, by decide, rfl⟩

/-- C8 counterexample: the concrete database stores two orders of customer
`"c1"`; when one of them fails to decode, the list operation does not skip
it and return the other - it fails as a whole with the scan error. -/
theorem claim8_scanFailure_counterexample :
    OrderRepository.GetOrdersByCustomerID dbEx "c1" scanFailsRowEx =
      Except.error "failed to scan order"
  ∧ scanFailsRowEx rowEx2 = false ∧ rowEx2.customerId = "c1" := by
  refine ⟨?_, rfl, rfl⟩
  rfl

/-- C9: The service's list normalizes the page to at least 1 and the page
size into 1..100 with default 10 when out of range, then delegates to the
store with limit equal to the normalized page size and offset equal to
(page - 1) * pageSize. -/
theorem claim9_pagination (db : DB) (page pageSize : ℤ) (scanFails : OrderRow → Bool) :
    ∃ page1 pageSize1 : ℤ,
      1 ≤ page1 ∧ 1 ≤ pageSize1 ∧ pageSize1 ≤ 100
    ∧ (1 ≤ page → page1 = page) ∧ (page < 1 → page1 = 1)
    ∧ ((1 ≤ pageSize ∧ pageSize ≤ 100) → pageSize1 = pageSize)
    ∧ (¬ (1 ≤ pageSize ∧ pageSize ≤ 100) → pageSize1 = 10)
    ∧ OrderService.GetAllOrders db page pageSize scanFails =
        (OrderRepository.GetAllOrders db pageSize1 ((page1 - 1) * pageSize1) scanFails).map
          (fun p => { orders := p.1.map toOrderResponse, total := p.2 }) := by
  refine ⟨if page < 1 then 1 else page, if pageSize < 1 ∨ pageSize > 100 then 10 else pageSize,
    ?_, ?_, ?_, ?_, ?_, ?_, ?_, ?_⟩
  · split <;> omega
  · split <;> omega
  · split <;> omega
  · intro hp
    rw [if_neg (by omega)]
  · intro hp
    rw [if_pos hp]
  · intro hs
    rw [if_neg (by omega)]
  · intro hs
    rw [if_pos (by omega)]
  · cases hr : OrderRepository.GetAllOrders db
        (if pageSize < 1 ∨ pageSize > 100 then 10 else pageSize)
        (((if page < 1 then 1 else page) - 1) *
          (if pageSize < 1 ∨ pageSize > 100 then 10 else pageSize)) scanFails with
    | error e =>
      simp only [OrderService.GetAllOrders, hr, Except.map]
    | ok p =>
      obtain ⟨os, t⟩ := p
      simp only [OrderService.GetAllOrders, hr, Except.map]

/-- Witness for C9: page 0 with out-of-range page size 200 delegates with
limit 10 and offset 0. -/
theorem claim9_pagination_witness :
    OrderService.GetAllOrders dbEx 0 200 (fun _ => false) =
      (OrderRepository.GetAllOrders dbEx 10 0 (fun _ => false)).map
        (fun p => { orders := p.1.map toOrderResponse, total := p.2 }) := by
  obtain ⟨p1, s1, _, _, _, _, hp, _, hs, heq⟩ :=
    claim9_pagination dbEx 0 200 (fun _ => false)
  rw [hp (by norm_num), hs (by norm_num)] at heq
  rw [show (((1 : ℤ) - 1) * 10) = 0 from by norm_num] at heq
  exact heq

/-- C10: Back-reference invariant: every order returned by the read paths
has its items populated with that order's own id as `order_id`, the id of
a fetched order equals the id it was looked up by, and a created order's
items carry the generated order id. -/
theorem claim10_backReference (db : DB) :
    (∀ id o, OrderRepository.GetOrderByID db id = Except.ok o →
      o.id = id ∧ ∀ it ∈ o.items, it.orderId = o.id)
  ∧ (∀ cid scanFails os,
      OrderRepository.GetOrdersByCustomerID db cid scanFails = Except.ok os →
      ∀ o ∈ os, ∀ it ∈ o.items, it.orderId = o.id)
  ∧ (∀ (limit offset : ℤ) scanFails os t,
      OrderRepository.GetAllOrders db limit offset scanFails = Except.ok (os, t) →
      ∀ o ∈ os, ∀ it ∈ o.items, it.orderId = o.id)
  ∧ (∀ req ids now ef cf db1 o,
      OrderService.CreateOrder db req ids now ef cf = (db1, Except.ok o) →
      ∀ it ∈ o.items, it.orderId = o.id) := by
  refine ⟨?_, ?_, ?_, ?_⟩
  · intro id o h
    rw [OrderRepository.GetOrderByID] at h
    cases hf : db.orders.find? fun r => decide (r.id = id) with
    | none =>
      rw [hf] at h
      exact absurd h (by simp)
    | some row =>
      rw [hf] at h
      have hid : row.id = id := by simpa using List.find?_some hf
      have ho : o = OrderRepository.rowToOrder db row := by simpa using h.symm
      subst ho
      exact ⟨hid, rowToOrder_items db row⟩
  · intro cid scanFails os h
    rw [OrderRepository.GetOrdersByCustomerID, scanRows_eq] at h
    split at h
    · have hos : os = (List.insertionSort dateDesc
          (db.orders.filter fun r => decide (r.customerId = cid))).map
            (OrderRepository.rowToOrder db) := by
        simpa using h.symm
      subst hos
      intro o ho
      obtain ⟨r, _, rfl⟩ := List.mem_map.1 ho
      exact rowToOrder_items db r
    · exact absurd h (by simp)
  · intro limit offset scanFails os t h
    by_cases hall : (((List.insertionSort dateDesc db.orders).drop offset.toNat).take
        limit.toNat).all (fun r => !scanFails r) = true
    · rw [OrderRepository.GetAllOrders, scanRows_eq, if_pos hall] at h
      simp at h
      obtain ⟨h1, h2⟩ := h
      subst h1
      intro o ho
      have ho2 := List.mem_of_mem_drop (List.mem_of_mem_take ho)
      obtain ⟨r, _, rfl⟩ := List.mem_map.1 ho2
      exact rowToOrder_items db r
    · rw [OrderRepository.GetAllOrders, scanRows_eq, if_neg hall] at h
      simp at h
  · intro req ids now ef cf db1 o h
    have h2 : (OrderService.CreateOrder db req ids now ef cf).2 = Except.ok o := by
      rw [h]
    intro it hit
    exact ((serviceCreateOrder_ok_spec db req ids now ef cf o h2).2.2.1 it hit).1

/-- Witness for C10: the order fetched under id `"o1"` from the concrete
database carries items pointing back at it. -/
theorem claim10_backReference_witness :
    ∃ o, OrderRepository.GetOrderByID dbEx "o1" = Except.ok o
      ∧ o.id = "o1" ∧ ∀ it ∈ o.items, it.orderId = o.id := by
  obtain ⟨o, ho⟩ := exists_ok_of_isOk
    (e := OrderRepository.GetOrderByID dbEx "o1") (by rfl)
  obtain ⟨hid, hits⟩ := (claim10_backReference dbEx).1 _ _ ho
  exact ⟨o, ho, hid, hits⟩

end LugxGaming
